import Mathlib

/-!
Verification development for the Pulse load-testing toolkit
(recording proxy, load engine, SSE event bus, control surface).

The Go sources are shallowly embedded: channels become explicit
bounded buffers, goroutine steps become state-passing functions, and
wall-clock time becomes an explicit trace of elapsed observations.
-/

set_option maxRecDepth 8000

namespace Pulse

/-!  ## Bounded channels

A Go buffered channel is modelled as a capacity together with the list of
buffered messages.  A `select`/`default` send (the non-blocking offer used by
the broker and by the engine result consumer) appends when there is room and
otherwise leaves the buffer unchanged; a plain send suspends the goroutine
when the buffer is full, which we model by returning `none`.  (A buffered
channel with a waiting receiver always has an empty buffer, so ignoring
rendezvous with receivers is sound for the full-buffer case.) -/

structure Chan (α : Type) where
  cap : Nat
  buf : List α
deriving DecidableEq

/-- Non-blocking offer: `select { case ch <- msg: default: }`. -/
def trySendChan {α : Type} (c : Chan α) (msg : α) : Chan α :=
  if c.buf.length < c.cap then { c with buf := c.buf ++ [msg] } else c

/-- Plain channel send `ch <- msg`: completes only when the buffer has room;
`none` means the sending goroutine is suspended until a receiver drains. -/
def blockingSend {α : Type} (c : Chan α) (msg : α) : Option (Chan α) :=
  if c.buf.length < c.cap then some { c with buf := c.buf ++ [msg] } else none

/-! ## SSE broker (cmd/orchestrator/main.go)

`broadcast` iterates the subscriber set under the mutex and performs a
non-blocking offer to each subscriber channel; `addClient` in the
`/api/events` handler always registers a channel of capacity 10. -/

/-- The subscriber channel created by the `/api/events` handler:
`make(chan []byte, 10)`. -/
def newSubscriberChan (α : Type) : Chan α :=
  { cap := 10, buf := [] }

/-- `sseBroker.broadcast`: offer `msg` to every current subscriber queue with
a non-blocking send. -/
def sseBroadcast {α : Type} (msg : α) (clients : List (Chan α)) : List (Chan α) :=
  clients.map (fun c => trySendChan c msg)

/-! ## Engine percentile (pkg/engine/engine.go, duplicated in the
ramp-up engine source)

`k := int(float64(len(durations)) * float64(p) / 100.0)` is the exact value
`len * p / 100` for every list length and percentile the program can reach
(the float64 products involved are exact and the division is correctly
rounded, far from an integer boundary), so the index is embedded with exact
natural division. -/

def percentile (durations : List Int) (p : Nat) : Int :=
  if durations.length = 0 then 0
  else
    let k := durations.length * p / 100
    let k2 := if k ≥ durations.length then durations.length - 1 else k
    durations.getD k2 0

def avgDuration (durations : List Int) : Int :=
  let sum := durations.foldl (fun a d => a + d) 0
  if durations.length = 0 then 0
  else Int.tdiv sum (Int.ofNat durations.length)

/-! ## Engine events and the ramp step (ramp-up engine source)

`Event` is the bus payload; `LatencyMs` is a `float64` in Go whose numeric
value is never computed with in any claim, so it is abstracted to an
integer field. -/

structure Event where
  ts : Nat
  name : String
  method : String
  path : String
  status : Int
  latencyMs : Int
  err : String
  concurrency : Int
deriving DecidableEq

/-- The synthetic event built right after `atomic.AddInt32(&activeUsers, 1)`:
zero-valued fields are Go zero values. -/
def rampEvent (now : Nat) (workerIdx : Nat) (cur : Int) : Event :=
  { ts := now, name := "RAMP_PROGRESS", method := "SYSTEM",
    path := "Worker #" ++ toString (workerIdx + 1) ++ " started",
    status := 0, latencyMs := 0, err := "", concurrency := cur }

/-- The worker step between the ramp sleep and the request loop: increment
`activeUsers` and, when an events sink is attached, send the synthetic
`RAMP_PROGRESS` event with a plain (blocking) channel send `events <- ...`.
`none` means the worker is suspended on that send. -/
def rampStep (now : Nat) (events : Option (Chan Event)) (workerIdx : Nat)
    (active : Int) : Option (Option (Chan Event) × Int) :=
  let cur := active + 1
  match events with
  | none => some (none, cur)
  | some ch =>
    match blockingSend ch (rampEvent now workerIdx cur) with
    | some ch2 => some (some ch2, cur)
    | none => none

/-- The per-result event offer in the results consumer:
`select { case events <- ev: default: }` — non-blocking, dropped when full. -/
def offerResultEvent (ch : Chan Event) (ev : Event) : Chan Event :=
  trySendChan ch ev

/-! ## Engine worker loop and summary (ramp-up engine source)

A worker repeats the scenario's requests while `time.Since(start) < duration`.
Wall-clock time is modelled by a trace of elapsed observations, one per
evaluation of the loop guard; elapsed times are non-negative.  The network
outcomes of one iteration of the inner request loop are supplied as a list of
pre-computed results (the HTTP client is an external collaborator). -/

structure GoResult where
  name : String
  method : String
  path : String
  status : Int
  latency : Int
  err : Option String
deriving DecidableEq

/-- Number of times the outer `for time.Since(start) < duration` guard passes,
given the successive elapsed observations. -/
def iterationsRun (checks : List Int) (duration : Int) : Nat :=
  (checks.takeWhile (fun e => decide (e < duration))).length

/-- All results one worker pushes into the results channel. -/
def workerResults (checks : List Int) (duration : Int)
    (iterResults : List GoResult) : List GoResult :=
  (List.replicate (iterationsRun checks duration) iterResults).flatten

/-- The launch loop `for i := 0; i < profile.Concurrency; i++ { go ... }`:
one worker per index, regardless of the duration value. -/
def launchWorkers (concurrency : Int) (duration : Int)
    (traces : List (List Int)) (iterResults : List GoResult) :
    List (List GoResult) :=
  (List.range concurrency.toNat).map
    (fun i => workerResults (traces.getD i []) duration iterResults)

structure RequestStat where
  name : String
  latencies : List Int
  failures : Nat
deriving DecidableEq

/-- One step of the results-consumer loop: append the latency to the bucket
keyed by the result name (creating it on first sight) and count failures. -/
def insertResult : List RequestStat → GoResult → List RequestStat
  | [], r => [{ name := r.name, latencies := [r.latency],
                failures := if r.err.isSome then 1 else 0 }]
  | s :: rest, r =>
    if s.name = r.name then
      { s with latencies := s.latencies ++ [r.latency],
               failures := s.failures + (if r.err.isSome then 1 else 0) } :: rest
    else s :: insertResult rest r

def computeStats (results : List GoResult) : List RequestStat :=
  results.foldl insertResult []

/-- Data-level rendering of `summarize`: the `noRequests` constructor stands
for printing exactly the line `No requests executed.`; `table` carries, per
lexicographically ordered non-empty bucket, the name, count, failures, and
the average/p90/p95 latencies, then the global aggregates.  The `%.2f`
text layout of those numbers is elided. -/
inductive Summary where
  | noRequests
  | table (rows : List (String × Nat × Nat × Int × Int × Int))
          (totalCount : Nat) (totalFails : Nat)
          (avgGlobal : Int) (p95Global : Int)
deriving DecidableEq

/-- `summarize`: Go returns `nil` on every path, so the `Except` is `.ok` in
both branches; the empty-stats branch prints `No requests executed.`. -/
def summarize (stats : List RequestStat) : Except String Summary :=
  if stats.length = 0 then .ok .noRequests
  else
    let sorted := stats.mergeSort (fun a b => a.name ≤ b.name)
    let nonEmpty := sorted.filter (fun s => !s.latencies.isEmpty)
    let rows := nonEmpty.map (fun s =>
      let lat := s.latencies.mergeSort (fun a b => a ≤ b)
      (s.name, lat.length, s.failures,
       avgDuration lat, percentile lat 90, percentile lat 95))
    let globalLat := (nonEmpty.map
      (fun s => s.latencies.mergeSort (fun a b => a ≤ b))).flatten
    let globalSorted := globalLat.mergeSort (fun a b => a ≤ b)
    .ok (.table rows
      (nonEmpty.foldl (fun a s => a + s.latencies.length) 0)
      (nonEmpty.foldl (fun a s => a + s.failures) 0)
      (avgDuration globalSorted) (percentile globalSorted 95))

/-! ## Go `time.ParseDuration`

The engine delegates duration parsing to the Go standard library; the
grammar is `[-+]?([0-9]*(\.[0-9]*)?[a-z]+)+` with units
ns/us/µs/μs/ms/s/m/h.  The embedding follows `src/time/format.go`
step by step over the character list; the fractional contribution,
computed there through `float64`, is taken as the exact floor
`f * unit / scale`, which agrees with the float computation for every
duration literal of realistic size. -/

def two63 : Nat := 9223372036854775808

/-- `leadingInt`: consume `[0-9]*`, reporting overflow past `1<<63`. -/
def leadingIntAux (x : Nat) : List Char → Option (Nat × List Char)
  | [] => some (x, [])
  | c :: rest =>
    if !c.isDigit then some (x, c :: rest)
    else if x > two63 / 10 then none
    else
      let y := x * 10 + (c.toNat - 48)
      if y > two63 then none
      else leadingIntAux y rest

/-- `leadingFraction`: consume `[0-9]*` after the dot, tracking the decimal
scale and silently stopping accumulation on overflow. -/
def leadingFractionAux (x scale : Nat) (overflow : Bool) :
    List Char → Nat × Nat × List Char
  | [] => (x, scale, [])
  | c :: rest =>
    if !c.isDigit then (x, scale, c :: rest)
    else if overflow then leadingFractionAux x scale true rest
    else if x > (two63 - 1) / 10 then leadingFractionAux x scale true rest
    else
      let y := x * 10 + (c.toNat - 48)
      if y > two63 then leadingFractionAux x scale true rest
      else leadingFractionAux y (scale * 10) overflow rest

def leadingFraction (s : List Char) : Nat × Nat × List Char :=
  leadingFractionAux 0 1 false s

/-- Number of leading characters of the unit token (up to the next digit
or dot). -/
def unitLen : List Char → Nat
  | [] => 0
  | c :: rest => if c = '.' || c.isDigit then 0 else unitLen rest + 1

/-- The `unitMap` of `src/time/format.go`, in nanoseconds. -/
def unitScale (u : List Char) : Option Nat :=
  if u = ['n', 's'] then some 1
  else if u = ['u', 's'] || u = ['µ', 's'] || u = ['μ', 's'] then some 1000
  else if u = ['m', 's'] then some 1000000
  else if u = ['s'] then some 1000000000
  else if u = ['m'] then some 60000000000
  else if u = ['h'] then some 3600000000000
  else none

/-- One `(\.[0-9]*)?unit` group per recursion step; `fuel` dominates the
input length, each step consuming at least one character. -/
def parseDurAux : Nat → Nat → List Char → Option Nat
  | 0, _, _ => none
  | _, d, [] => some d
  | Nat.succ fuel, d, c :: rest =>
    if !(c = '.' || c.isDigit) then none
    else
      match leadingIntAux 0 (c :: rest) with
      | none => none
      | some (v, s1) =>
        let pre := decide (s1.length ≠ (c :: rest).length)
        let fps :=
          match s1 with
          | '.' :: t =>
            let fsc := leadingFraction t
            (fsc.1, fsc.2.1, fsc.2.2, decide (fsc.2.2.length ≠ t.length))
          | _ => (0, 1, s1, false)
        let f := fps.1
        let scale := fps.2.1
        let s2 := fps.2.2.1
        let post := fps.2.2.2
        if !pre && !post then none
        else
          let ul := unitLen s2
          if ul = 0 then none
          else
            match unitScale (s2.take ul) with
            | none => none
            | some unit =>
              if v > two63 / unit then none
              else
                let v2 := v * unit
                let v3 := if f > 0 then v2 + f * unit / scale else v2
                if v3 > two63 then none
                else
                  let d2 := d + v3
                  if d2 > two63 then none
                  else parseDurAux fuel d2 (s2.drop ul)

/-- `time.ParseDuration`, returning the duration in nanoseconds, `none` on
a parse error.  Note that signed durations parse: `"-5s"` is accepted. -/
def goParseDuration (s : String) : Option Int :=
  let cs := s.data
  let sgn :=
    match cs with
    | '-' :: t => (true, t)
    | '+' :: t => (false, t)
    | t => (false, t)
  let neg := sgn.1
  let body := sgn.2
  if body = ['0'] then some 0
  else if body = [] then none
  else
    match parseDurAux (body.length + 1) 0 body with
    | none => none
    | some d =>
      if neg then some (-(Int.ofNat d))
      else if d > two63 - 1 then none
      else some (Int.ofNat d)

/-! ## Scenario timing parse (ramp-up engine source, `runInternal`)

`duration` must parse or the run fails with `invalid duration`; a non-empty
`ramp_up` is parsed but a parse error is silently ignored, leaving the ramp
at zero. -/

structure Profile where
  concurrency : Int
  rampUp : String
  duration : String
  rampDown : String
  iterations : Int
  startupDelay : String
deriving DecidableEq

def parseTiming (p : Profile) : Except String (Int × Int) :=
  match goParseDuration p.duration with
  | none => .error "invalid duration"
  | some d =>
    let rampUp : Int :=
      if p.rampUp ≠ "" then
        match goParseDuration p.rampUp with
        | some ru => ru
        | none => 0
      else 0
    .ok (d, rampUp)

/-- The parse phase of `runInternal`: `none` stands for an unreadable file or
undecodable YAML (which both return an error before timing is examined);
otherwise the profile timing is parsed by `parseTiming`. -/
def scenarioTiming (input : Option Profile) : Except String (Int × Int) :=
  match input with
  | none => .error "cannot read YAML file"
  | some p => parseTiming p

/-! ## Recording proxy (pkg/recorder)

Maps are embedded as association lists; `req.Header` arrives with
multi-valued entries that `handleHTTP` joins with a semicolon.
`strings.ToUpper` / `strings.ToLower` are embedded character-wise; the
strings they are applied to here (HTTP methods, header keys compared with
`"cookie"`) are ASCII, on which the embeddings agree with Go. -/

def goToUpper (s : String) : String :=
  String.mk (s.data.map Char.toUpper)

def goToLower (s : String) : String :=
  String.mk (s.data.map Char.toLower)

/-- `strings.ReplaceAll` for a single-character pattern and replacement. -/
def goReplaceChar (s : String) (c r : Char) : String :=
  String.mk (s.data.map (fun x => if x = c then r else x))

/-- `strings.Split` with a single-character separator. -/
def splitOnCharAux (c : Char) (cur : List Char) : List Char → List (List Char)
  | [] => [cur.reverse]
  | x :: rest =>
    if x = c then cur.reverse :: splitOnCharAux c [] rest
    else splitOnCharAux c (x :: cur) rest

def goSplitChar (s : String) (c : Char) : List String :=
  (splitOnCharAux c [] s.data).map String.mk

/-- `strings.HasPrefix`. -/
def goHasPre (s pre : String) : Bool :=
  pre.data.isPrefixOf s.data

structure RecordedRequest where
  timestamp : Nat
  method : String
  url : String
  host : String
  headers : List (String × String)
  cookies : List (String × String)
  body : String
  proto : String
  note : String
deriving DecidableEq

/-- `RecordedEvent` — the recorder's live-stream payload.  It has no error
field of any kind. -/
structure RecordedEvent where
  method : String
  url : String
  status : Int
  time : String
  headers : List (String × String)
  body : String
  response : String
  proto : String
  host : String
  port : String
  note : String
deriving DecidableEq

structure UpstreamResponse where
  statusCode : Int
  headers : List (String × List String)
  body : String
deriving DecidableEq

/-- The incoming request as the handler sees it. -/
structure ProxyRequest where
  method : String
  url : String
  host : String
  headersRaw : List (String × List String)
  cookies : List (String × String)
  body : String
  proto : String
deriving DecidableEq

def joinHeaderValues (hs : List (String × List String)) :
    List (String × String) :=
  hs.map (fun kv => (kv.1, String.intercalate "; " kv.2))

def extractPort (host : String) : String :=
  if host.data.contains ':' then (goSplitChar host ':').getD 1 ""
  else "80"

/-- The `RecordedRequest` appended to the capture list before forwarding. -/
def mkProxyRecord (req : ProxyRequest) (now : Nat) : RecordedRequest :=
  { timestamp := now, method := req.method, url := req.url, host := req.host,
    headers := joinHeaderValues req.headersRaw, cookies := req.cookies,
    body := req.body, proto := req.proto, note := "" }

/-- Everything observable that one call of `Recorder.handleHTTP` produces. -/
instance : Inhabited RecordedRequest :=
  ⟨{ timestamp := 0, method := "", url := "", host := "", headers := [],
     cookies := [], body := "", proto := "", note := "" }⟩

structure HandleOutcome where
  clientStatus : Int
  clientBody : String
  newRecords : List RecordedRequest
  emitted : List RecordedEvent
deriving DecidableEq

/-- The non-CONNECT path of `Recorder.handleHTTP` (the CONNECT method is
dispatched to `handleConnect` before this code runs): buffer the body,
snapshot headers and cookies, append the capture record, forward upstream;
on round-trip error reply `502` via `http.Error` and return — no event is
emitted on that path; on success relay status and body and emit one
`RecordedEvent`.  `clock` is `time.Now().Format("15:04:05")`. -/
def handleHTTPCore (req : ProxyRequest) (now : Nat) (clock : String)
    (upstream : Except String UpstreamResponse) : HandleOutcome :=
  let rec0 := mkProxyRecord req now
  match upstream with
  | .error e =>
    { clientStatus := 502, clientBody := "Upstream error: " ++ e ++ "\n",
      newRecords := [rec0], emitted := [] }
  | .ok resp =>
    { clientStatus := resp.statusCode, clientBody := resp.body,
      newRecords := [rec0],
      emitted := [{ method := req.method, url := req.url,
                    status := resp.statusCode, time := clock,
                    headers := joinHeaderValues req.headersRaw,
                    body := req.body, response := resp.body,
                    proto := req.proto, host := req.host,
                    port := extractPort req.host, note := "" }] }

/-- `Recorder.emitEvent`: non-blocking offer to the `Events` channel
(capacity 100), dropping the event when full. -/
def emitEvent (events : Chan RecordedEvent) (ev : RecordedEvent) :
    Chan RecordedEvent :=
  trySendChan events ev

/-! ## Artifact write (`Recorder.writeYAML`, `sanitizeName`) -/

def sanitizeName (s : String) : String :=
  goReplaceChar (goReplaceChar (goReplaceChar s ':' '_') '/' '_') ' ' '_'

/-- Decimal rendering of `fmt.Sprintf "%02d"`: zero-padded to a minimum
width of two. -/
def pad2 (n : Nat) : String :=
  if n < 10 then "0" ++ toString n else toString n

def cleanHeaders (hs : List (String × String)) : List (String × String) :=
  hs.filter (fun kv => goToLower kv.1 ≠ "cookie")

/-- `strings.TrimPrefix`: drop `pre` when it heads `s`, else `s` itself. -/
def goTrimPre (s pre : String) : String :=
  if goHasPre s pre then String.mk (s.data.drop pre.data.length) else s

/-- Derive the `protocol` and `path` fields of an artifact request from the
recorded URL and host. -/
def splitProtoPath (url host : String) : String × String :=
  if goHasPre url "http://" then
    ("http", goTrimPre url ("http://" ++ host))
  else if goHasPre url "https://" then
    ("https", goTrimPre url ("https://" ++ host))
  else ("https", url)

structure ArtifactRequest where
  name : String
  method : String
  protocol : String
  host : String
  path : String
  headers : List (String × String)
  body : String
  note : Option String
deriving DecidableEq

instance : Inhabited ArtifactRequest :=
  ⟨{ name := "", method := "", protocol := "", host := "", path := "",
     headers := [], body := "", note := none }⟩

structure Artifact where
  version : String
  scenario : String
  concurrency : Nat
  duration : String
  requests : List ArtifactRequest
deriving DecidableEq

/-- The request map built for index `i` (0-based) of the snapshot. -/
def mkArtifactEntry (i : Nat) (rec : RecordedRequest) : ArtifactRequest :=
  let pp := splitProtoPath rec.url rec.host
  { name := pad2 (i + 1) ++ "_" ++ sanitizeName (rec.method ++ "_" ++ rec.host),
    method := rec.method, protocol := pp.1, host := rec.host, path := pp.2,
    headers := cleanHeaders rec.headers, body := rec.body,
    note := if rec.note ≠ "" then some rec.note else none }

/-- The `for i, rec := range records` loop of `writeYAML`. -/
def mkArtifactRequests (start : Nat) : List RecordedRequest → List ArtifactRequest
  | [] => []
  | r :: rest => mkArtifactEntry start r :: mkArtifactRequests (start + 1) rest

/-- `Recorder.writeYAML` on the snapshot of the capture list: `none` means
the empty snapshot skips file creation (and `Stop` still succeeds, since Go
returns `nil` there); otherwise the artifact that is encoded to the
`recorded_*.pulse.yaml` file. -/
def writeYAML (records : List RecordedRequest) : Option Artifact :=
  if records.isEmpty then none
  else some
    { version := "1.0", scenario := "Recorded Session", concurrency := 1,
      duration := "10s", requests := mkArtifactRequests 0 records }

/-! ## `Recorder.Stop` as an interleaved two-step program

`Stop` compiles to: (1) poll `stopCh` with `select`/`default`; (2) when the
poll says the channel is still open, `close(stopCh)`, which panics if some
other caller closed it between the two steps.  Each caller is a thread with
a program counter: 0 = about to poll, 1 = about to close, 2 = done. -/

structure StopState where
  closed : Bool
  panicked : Bool
  closeCount : Nat
  pcs : Nat → Nat

def stepStop (s : StopState) (t : Nat) : StopState :=
  if s.panicked then s
  else
    match s.pcs t with
    | 0 =>
      if s.closed then { s with pcs := fun j => if j = t then 2 else s.pcs j }
      else { s with pcs := fun j => if j = t then 1 else s.pcs j }
    | 1 =>
      if s.closed then
        { s with pcs := fun j => if j = t then 2 else s.pcs j,
                 panicked := true }
      else
        { s with closed := true, closeCount := s.closeCount + 1,
                 pcs := fun j => if j = t then 2 else s.pcs j }
    | _ => s

/-- `n` callers about to run `Stop`; thread ids at `n` and beyond are
already done. -/
def initStop (n : Nat) : StopState :=
  { closed := false, panicked := false, closeCount := 0,
    pcs := fun t => if t < n then 0 else 2 }

/-- Run `n` concurrent `Stop` callers under the interleaving `sched`. -/
def runStops (n : Nat) (sched : List Nat) : StopState :=
  sched.foldl stepStop (initStop n)

/-- The schedule in which each `Stop` call runs to completion before the
next one starts (sequential calls). -/
def seqSched (n : Nat) : List Nat :=
  (List.range n).flatMap (fun t => [t, t])

/-! ## Control-surface ingest (`/api/report`, cmd/orchestrator/main.go)

The handler decodes the POSTed body as an `engine.Event`; an undecodable
body is answered with `400 invalid event body`; a decoded event whose
method is a system class (`""`, `"SYSTEM"`, `"INFO"`) is dropped without
being broadcast (the handler returns, which the HTTP server answers with an
implicit `200`); anything else is serialized and broadcast on the bus.
Broadcast payloads are carried as the events themselves (their JSON
serialization is injective on the fields modelled). -/

structure ReportOutcome where
  status : Nat
  broadcasts : List Event
deriving DecidableEq

def reportHandler (httpMethod : String) (body : Option Event) : ReportOutcome :=
  if httpMethod ≠ "POST" then { status := 405, broadcasts := [] }
  else
    match body with
    | none => { status := 400, broadcasts := [] }
    | some ev =>
      if ev.method = "" || ev.method = "SYSTEM" || ev.method = "INFO" then
        { status := 200, broadcasts := [] }
      else
        { status := 200, broadcasts := [ev] }

/-! # Theorems -/

/-- Claim C1: broadcasting a message to any current set of subscribers (each
registered with a capacity-10 queue) always completes — `sseBroadcast` is a
total function that keeps every subscriber — every subscriber whose queue has
free space receives the message appended to its queue, and a subscriber whose
queue is full skips the message and keeps its queue unchanged, independently
of the other subscribers. -/
theorem sse_broadcast_lossy {α : Type} (clients : List (Chan α)) (msg : α)
    (hcap : ∀ c ∈ clients, c.cap = 10) (i : Nat) (hi : i < clients.length) :
    (sseBroadcast msg clients).length = clients.length ∧
    ((clients.getD i (newSubscriberChan α)).buf.length < 10 →
      (sseBroadcast msg clients).getD i (newSubscriberChan α) =
        { cap := 10,
          buf := (clients.getD i (newSubscriberChan α)).buf ++ [msg] }) ∧
    (10 ≤ (clients.getD i (newSubscriberChan α)).buf.length →
      (sseBroadcast msg clients).getD i (newSubscriberChan α) =
        clients.getD i (newSubscriberChan α)) := by
  have hlen : (sseBroadcast msg clients).length = clients.length := by
    simp [sseBroadcast]
  have hi2 : i < (sseBroadcast msg clients).length := by rw [hlen]; exact hi
  have hgd : clients.getD i (newSubscriberChan α) = clients[i] :=
    List.getD_eq_getElem clients _ hi
  have hmem : clients[i] ∈ clients := List.getElem_mem hi
  have hc : (clients[i]).cap = 10 := hcap _ hmem
  have hmap : (sseBroadcast msg clients).getD i (newSubscriberChan α) =
      trySendChan clients[i] msg := by
    rw [List.getD_eq_getElem _ _ hi2]
    simp [sseBroadcast]
  refine ⟨hlen, ?_, ?_⟩
  · intro hfree
    rw [hgd] at hfree
    rw [hmap, hgd, trySendChan, if_pos (by rw [hc]; exact hfree)]
    cases h : clients[i] with
    | mk cap buf =>
      have : cap = 10 := by rw [h] at hc; exact hc
      subst this
      rfl
  · intro hfull
    rw [hgd] at hfull
    rw [hmap, hgd, trySendChan, if_neg (by rw [hc]; omega)]

/-- Witness for C1 at a concrete subscriber set: the first subscriber has
room and receives the message; the second is full and skips it. -/
theorem sse_broadcast_lossy_witness :
    (sseBroadcast 7 [⟨10, [1, 2]⟩, ⟨10, [0, 0, 0, 0, 0, 0, 0, 0, 0, 0]⟩]).getD 0
        (newSubscriberChan Nat) = ⟨10, [1, 2, 7]⟩ ∧
    (sseBroadcast 7 [⟨10, [1, 2]⟩, ⟨10, [0, 0, 0, 0, 0, 0, 0, 0, 0, 0]⟩]).getD 1
        (newSubscriberChan Nat) = ⟨10, [0, 0, 0, 0, 0, 0, 0, 0, 0, 0]⟩ := by
  constructor
  · exact (sse_broadcast_lossy [⟨10, [1, 2]⟩, ⟨10, [0, 0, 0, 0, 0, 0, 0, 0, 0, 0]⟩]
      7 (by decide) 0 (by decide)).2.1 (by decide)
  · exact (sse_broadcast_lossy [⟨10, [1, 2]⟩, ⟨10, [0, 0, 0, 0, 0, 0, 0, 0, 0, 0]⟩]
      7 (by decide) 1 (by decide)).2.2 (by decide)

/-- Claim C2: for a non-empty latency list `L` of length `n` and a percentile
`p` in `[1,100]`, `percentile` returns the element at index
`min (n-1) (n*p/100)`, and for an empty list it returns `0`. -/
theorem percentile_index (L : List Int) (p : Nat) (h1 : 1 ≤ p) (h2 : p ≤ 100) :
    percentile [] p = 0 ∧
    (0 < L.length →
      percentile L p = L.getD (min (L.length - 1) (L.length * p / 100)) 0) := by
  constructor
  · rfl
  · intro hL
    have hne : ¬L.length = 0 := by omega
    simp only [percentile, if_neg hne]
    congr 1
    split <;> omega

/-- Witness for C2 at `L = [10, 20, 30, 40]`, `p = 90`:
index `min 3 (4*90/100) = 3`, value `40`. -/
theorem percentile_index_witness :
    percentile ([] : List Int) 90 = 0 ∧
    percentile [10, 20, 30, 40] 90 =
      [(10 : Int), 20, 30, 40].getD (min (4 - 1) (4 * 90 / 100)) 0 := by
  exact ⟨(percentile_index [10, 20, 30, 40] 90 (by decide) (by decide)).1,
    (percentile_index [10, 20, 30, 40] 90 (by decide) (by decide)).2 (by decide)⟩

/-- A results channel already holding its full capacity of 100 events. -/
def fullEventsChan : Chan Event :=
  { cap := 100, buf := List.replicate 100 (rampEvent 0 0 1) }

/-- Counterexample to claim C3: the synthetic `RAMP_PROGRESS` event is sent
with a plain blocking send, not a non-blocking offer — when the events sink
is full the worker's ramp step does not complete (it suspends) instead of
dropping the event. -/
theorem ramp_send_blocks_cex :
    rampStep 0 (some fullEventsChan) 0 0 = none := by
  rfl

/-- Claim C3 amended: a worker can block at the `RAMP_PROGRESS` send on the
events sink in addition to network I/O, the results-channel send and the
ramp sleep: the ramp step appends the synthetic event when the sink has room,
suspends when the sink is full, and skips the sink when none is attached;
only the per-result events offered by the results consumer are non-blocking,
dropped exactly when the sink is full. -/
theorem ramp_send_blocking_offer_nonblocking (now idx : Nat) (active : Int)
    (ch : Chan Event) (ev : Event) :
    (ch.buf.length < ch.cap →
      rampStep now (some ch) idx active =
        some (some { ch with buf := ch.buf ++ [rampEvent now idx (active + 1)] },
              active + 1)) ∧
    (¬ch.buf.length < ch.cap → rampStep now (some ch) idx active = none) ∧
    rampStep now none idx active = some (none, active + 1) ∧
    (ch.buf.length < ch.cap →
      offerResultEvent ch ev = { ch with buf := ch.buf ++ [ev] }) ∧
    (¬ch.buf.length < ch.cap → offerResultEvent ch ev = ch) := by
  refine ⟨fun h => ?_, fun h => ?_, rfl, fun h => ?_, fun h => ?_⟩
  · simp [rampStep, blockingSend, if_pos h]
  · simp [rampStep, blockingSend, if_neg h]
  · simp [offerResultEvent, trySendChan, if_pos h]
  · simp [offerResultEvent, trySendChan, if_neg h]

/-- Witness for the amended C3: a sink with room takes the ramp event; a
full sink suspends the ramp step but never the per-result offer, which
drops. -/
theorem ramp_send_blocking_offer_nonblocking_witness :
    rampStep 0 (some { cap := 100, buf := [] }) 0 0 =
      some (some { cap := 100, buf := [rampEvent 0 0 1] }, 1) ∧
    rampStep 0 (some fullEventsChan) 2 5 = none ∧
    offerResultEvent fullEventsChan (rampEvent 0 0 1) = fullEventsChan := by
  refine ⟨?_, ?_, ?_⟩
  · exact (ramp_send_blocking_offer_nonblocking 0 0 0
      { cap := 100, buf := [] } (rampEvent 0 0 1)).1 (by decide)
  · exact (ramp_send_blocking_offer_nonblocking 0 2 5 fullEventsChan
      (rampEvent 0 0 1)).2.1 (by simp [fullEventsChan])
  · exact (ramp_send_blocking_offer_nonblocking 0 0 0 fullEventsChan
      (rampEvent 0 0 1)).2.2.2.2 (by simp [fullEventsChan])

/-- A concrete non-CONNECT request for the recorder counterexample. -/
def reqGetExample : ProxyRequest :=
  { method := "GET", url := "http://example.com/", host := "example.com",
    headersRaw := [("Accept", ["text/html"])], cookies := [], body := "",
    proto := "HTTP/1.1" }

/-- Counterexample to claim C4: when the upstream round-trip of a
non-CONNECT request fails, the proxy does reply `502`, but the error branch
returns before `emitEvent` — no event whatsoever is published on the events
channel (there is no event carrying `status = 0` and an error text; the
recorder's event type does not even have an `err` field). -/
theorem upstream_error_no_event_cex :
    (handleHTTPCore reqGetExample 0 "12:00:00"
        (.error "connection refused")).clientStatus = 502 ∧
    (handleHTTPCore reqGetExample 0 "12:00:00"
        (.error "connection refused")).emitted = [] := by
  constructor <;> rfl

/-- Claim C4 amended: for every non-CONNECT request whose upstream
round-trip fails, the proxy replies `502 Bad Gateway` with the error text in
the body, the request is still captured in the in-memory log, and no event
is published on the events channel for the failed exchange. -/
theorem upstream_error_502_no_event (req : ProxyRequest) (now : Nat)
    (clock : String) (e : String) (hm : goToUpper req.method ≠ "CONNECT") :
    (handleHTTPCore req now clock (.error e)).clientStatus = 502 ∧
    (handleHTTPCore req now clock (.error e)).clientBody =
      "Upstream error: " ++ e ++ "\n" ∧
    (handleHTTPCore req now clock (.error e)).newRecords =
      [mkProxyRecord req now] ∧
    (handleHTTPCore req now clock (.error e)).emitted = [] := by
  refine ⟨rfl, rfl, rfl, rfl⟩

/-- Witness for the amended C4 at a concrete GET request. -/
theorem upstream_error_502_no_event_witness :
    (handleHTTPCore reqGetExample 3 "10:30:00"
        (.error "dial tcp: timeout")).clientStatus = 502 ∧
    (handleHTTPCore reqGetExample 3 "10:30:00"
        (.error "dial tcp: timeout")).clientBody =
      "Upstream error: " ++ "dial tcp: timeout" ++ "\n" ∧
    (handleHTTPCore reqGetExample 3 "10:30:00"
        (.error "dial tcp: timeout")).newRecords =
      [mkProxyRecord reqGetExample 3] ∧
    (handleHTTPCore reqGetExample 3 "10:30:00"
        (.error "dial tcp: timeout")).emitted = [] :=
  upstream_error_502_no_event reqGetExample 3 "10:30:00" "dial tcp: timeout"
    (by decide)

/-- Claim C5: the `/api/report` handler answers `400` for a body that does
not decode as an `Event`; it drops (does not broadcast) a decoded event
whose method is `""`, `"SYSTEM"` or `"INFO"`; and it broadcasts every other
decoded event on the bus, answering `200`. -/
theorem report_ingest_filter :
    (∀ ev : Event,
      (ev.method = "" ∨ ev.method = "SYSTEM" ∨ ev.method = "INFO") →
      reportHandler "POST" (some ev) = { status := 200, broadcasts := [] }) ∧
    (∀ ev : Event,
      ev.method ≠ "" → ev.method ≠ "SYSTEM" → ev.method ≠ "INFO" →
      reportHandler "POST" (some ev) =
        { status := 200, broadcasts := [ev] }) ∧
    reportHandler "POST" none = { status := 400, broadcasts := [] } := by
  refine ⟨fun ev h => ?_, fun ev h1 h2 h3 => ?_, rfl⟩
  · rcases h with h | h | h <;> simp [reportHandler, h]
  · simp [reportHandler, h1, h2, h3]

/-- A system-class event and an ordinary event for the C5 witness. -/
def sysReportEvent : Event :=
  { ts := 0, name := "RAMP_PROGRESS", method := "SYSTEM",
    path := "Worker #1 started", status := 0, latencyMs := 0, err := "",
    concurrency := 1 }

def getReportEvent : Event :=
  { ts := 0, name := "GET /", method := "GET", path := "/", status := 200,
    latencyMs := 3, err := "", concurrency := 2 }

/-- Witness for C5: the system event is dropped, the ordinary event is
broadcast, the undecodable body is a `400`. -/
theorem report_ingest_filter_witness :
    reportHandler "POST" (some sysReportEvent) =
      { status := 200, broadcasts := [] } ∧
    reportHandler "POST" (some getReportEvent) =
      { status := 200, broadcasts := [getReportEvent] } := by
  constructor
  · exact report_ingest_filter.1 sysReportEvent (Or.inr (Or.inl rfl))
  · exact report_ingest_filter.2.1 getReportEvent (by decide) (by decide)
      (by decide)

/-- A profile with a malformed `ramp_up` and a negative `duration`. -/
def lenientProfile : Profile :=
  { concurrency := 1, rampUp := "oops", duration := "-5s", rampDown := "",
    iterations := 0, startupDelay := "" }

/-- Counterexample to claim C6: a profile whose `ramp_up` is not a duration
at all and whose `duration` is negative parses successfully — the run
proceeds with duration −5s and ramp 0 instead of failing. -/
theorem timing_lenient_cex :
    scenarioTiming (some lenientProfile) = .ok (-5000000000, 0) ∧
    goParseDuration lenientProfile.rampUp = none ∧
    goParseDuration lenientProfile.duration = some (-5000000000) := by
  refine ⟨rfl, rfl, rfl⟩

/-- Claim C6 amended: the parse fails on unreadable input and whenever the
`duration` string does not parse as a (possibly signed) Go duration; a
non-empty `ramp_up` that fails to parse is silently treated as ramp `0`
instead of failing, and negative duration values (duration or ramp) are
accepted, so the run proceeds. -/
theorem timing_parse_spec (p : Profile) :
    scenarioTiming none = .error "cannot read YAML file" ∧
    (goParseDuration p.duration = none →
      scenarioTiming (some p) = .error "invalid duration") ∧
    (∀ d : Int, goParseDuration p.duration = some d → p.rampUp ≠ "" →
      goParseDuration p.rampUp = none → scenarioTiming (some p) = .ok (d, 0)) ∧
    (∀ d : Int, goParseDuration p.duration = some d →
      ∃ r : Int, scenarioTiming (some p) = .ok (d, r)) := by
  refine ⟨rfl, fun h => ?_, fun d hd hne hru => ?_, fun d hd => ?_⟩
  · simp [scenarioTiming, parseTiming, h]
  · simp [scenarioTiming, parseTiming, hd, hne, hru]
  · by_cases he : p.rampUp = ""
    · exact ⟨0, by simp [scenarioTiming, parseTiming, hd, he]⟩
    · cases hru : goParseDuration p.rampUp with
      | none => exact ⟨0, by simp [scenarioTiming, parseTiming, hd, he, hru]⟩
      | some ru =>
        exact ⟨ru, by simp [scenarioTiming, parseTiming, hd, he, hru]⟩

/-- A profile with a malformed non-empty ramp and a valid duration. -/
def rampNopeProfile : Profile :=
  { concurrency := 2, rampUp := "nope", duration := "30s", rampDown := "",
    iterations := 0, startupDelay := "" }

/-- Witness for the amended C6: a malformed non-empty ramp with a valid
duration yields a successful parse with ramp `0`. -/
theorem timing_parse_spec_witness :
    scenarioTiming (some rampNopeProfile) = .ok (30000000000, 0) :=
  (timing_parse_spec rampNopeProfile).2.2.1 30000000000 (by rfl) (by decide)
    (by rfl)

/-- Every entry of the artifact request list comes from some captured
record through `mkArtifactEntry`. -/
theorem mem_mkArtifactRequests {r : ArtifactRequest} :
    ∀ {recs : List RecordedRequest} {start : Nat},
      r ∈ mkArtifactRequests start recs →
      ∃ k rec, rec ∈ recs ∧ r = mkArtifactEntry k rec := by
  intro recs
  induction recs with
  | nil => intro start h; simp [mkArtifactRequests] at h
  | cons x xs ih =>
    intro start h
    simp only [mkArtifactRequests, List.mem_cons] at h
    rcases h with h | h
    · exact ⟨start, x, List.mem_cons_self x xs, h⟩
    · obtain ⟨k, rec, hm, he⟩ := ih h
      exact ⟨k, rec, List.mem_cons_of_mem x hm, he⟩

theorem mkArtifactRequests_length :
    ∀ (recs : List RecordedRequest) (start : Nat),
      (mkArtifactRequests start recs).length = recs.length := by
  intro recs
  induction recs with
  | nil => intro start; rfl
  | cons x xs ih =>
    intro start
    simp [mkArtifactRequests, ih]

theorem mkArtifactRequests_getD :
    ∀ (recs : List RecordedRequest) (start i : Nat), i < recs.length →
      (mkArtifactRequests start recs).getD i default =
        mkArtifactEntry (start + i) (recs.getD i default) := by
  intro recs
  induction recs with
  | nil => intro start i hi; simp at hi
  | cons x xs ih =>
    intro start i hi
    cases i with
    | zero => simp [mkArtifactRequests]
    | succ j =>
      have hj : j < xs.length := by simpa using hi
      simp only [mkArtifactRequests, List.getD_cons_succ]
      rw [ih (start + 1) j hj]
      congr 1
      omega

/-- Claim C7: no request of a written session artifact carries a header key
equal to `Cookie` under case-insensitive (lower-cased) comparison. -/
theorem artifact_no_cookie_header (recs : List RecordedRequest)
    (a : Artifact) (ha : writeYAML recs = some a) (req : ArtifactRequest)
    (hreq : req ∈ a.requests) (kv : String × String)
    (hkv : kv ∈ req.headers) :
    goToLower kv.1 ≠ goToLower "Cookie" := by
  unfold writeYAML at ha
  by_cases hemp : recs.isEmpty
  · rw [if_pos hemp] at ha
    cases ha
  · rw [if_neg hemp] at ha
    obtain rfl := Option.some.inj ha
    obtain ⟨k, rec, _, rfl⟩ := mem_mkArtifactRequests hreq
    simp only [mkArtifactEntry] at hkv
    have hpred := (List.mem_filter.mp hkv).2
    have : goToLower kv.1 ≠ "cookie" := of_decide_eq_true hpred
    simpa using this

/-- A captured request carrying `Cookie` headers in two spellings. -/
def cookieRecExample : RecordedRequest :=
  { timestamp := 0, method := "GET", url := "http://example.com/a",
    host := "example.com",
    headers := [("Cookie", "sid=1"), ("cOoKiE", "x"), ("Accept", "*")],
    cookies := [("sid", "1")], body := "", proto := "HTTP/1.1", note := "" }

def cookieArtifactExample : Artifact :=
  { version := "1.0", scenario := "Recorded Session", concurrency := 1,
    duration := "10s", requests := [mkArtifactEntry 0 cookieRecExample] }

/-- Witness for C7 at a concrete capture containing `Cookie` and `cOoKiE`
headers: the surviving key is not a case variant of `Cookie`. -/
theorem artifact_no_cookie_header_witness :
    goToLower "Accept" ≠ goToLower "Cookie" :=
  artifact_no_cookie_header [cookieRecExample] cookieArtifactExample rfl
    (mkArtifactEntry 0 cookieRecExample) (by decide) ("Accept", "*")
    (by decide)

/-- Claim C8: an empty capture list produces no artifact (and `writeYAML`
still succeeds); a non-empty one produces an artifact whose top-level fields
are exactly version `1.0`, scenario `Recorded Session`, concurrency `1` and
duration `10s`, followed by the mapped requests, the `i`-th named by the
1-based index zero-padded to two digits, an underscore, and `METHOD_HOST`
with `:`, `/` and space replaced by `_`. -/
theorem artifact_shape (recs : List RecordedRequest) (hne : recs ≠ []) :
    writeYAML [] = none ∧
    ∃ a, writeYAML recs = some a ∧
      a.version = "1.0" ∧ a.scenario = "Recorded Session" ∧
      a.concurrency = 1 ∧ a.duration = "10s" ∧
      a.requests.length = recs.length ∧
      ∀ i, i < recs.length →
        (a.requests.getD i default).name =
          pad2 (i + 1) ++ "_" ++
            sanitizeName ((recs.getD i default).method ++ "_" ++
              (recs.getD i default).host) := by
  have hemp : ¬recs.isEmpty := by
    cases recs with
    | nil => exact absurd rfl hne
    | cons x xs => simp
  refine ⟨rfl, ⟨Artifact.mk "1.0" "Recorded Session" 1 "10s"
    (mkArtifactRequests 0 recs), ?_, rfl, rfl, rfl, rfl, ?_, ?_⟩⟩
  · unfold writeYAML
    rw [if_neg hemp]
  · exact mkArtifactRequests_length recs 0
  · intro i hi
    rw [mkArtifactRequests_getD recs 0 i hi]
    simp [mkArtifactEntry]

/-- Witness for C8 at a one-element capture list. -/
theorem artifact_shape_witness :
    writeYAML [] = none ∧
    ∃ a, writeYAML [cookieRecExample] = some a ∧
      a.version = "1.0" ∧ a.scenario = "Recorded Session" ∧
      a.concurrency = 1 ∧ a.duration = "10s" ∧
      a.requests.length = [cookieRecExample].length ∧
      ∀ i, i < [cookieRecExample].length →
        (a.requests.getD i default).name =
          pad2 (i + 1) ++ "_" ++
            sanitizeName (([cookieRecExample].getD i default).method ++ "_" ++
              ([cookieRecExample].getD i default).host) :=
  artifact_shape [cookieRecExample] (by decide)

/-- A sample successful result for the engine counterexample. -/
def resultExample : GoResult :=
  { name := "GET /", method := "GET", path := "/", status := 200,
    latency := 5, err := none }

/-- Counterexample to claim C9: with `concurrency = 2` and `duration = 0`
the engine still launches two workers (the launch loop never consults the
duration) — they just execute zero iterations. -/
theorem zero_duration_workers_cex :
    (launchWorkers 2 0 [[0], [0]] [resultExample]).length = 2 ∧
    (launchWorkers 2 0 [[0], [0]] [resultExample]).flatten = [] := by
  constructor <;> rfl

/-- Claim C9 amended: with `concurrency = 0` no workers are launched; with
`duration = 0` (more generally `≤ 0`) one worker per unit of concurrency is
launched but, elapsed time being non-negative, executes no iteration; in
both cases no results are produced, the summary prints exactly
`No requests executed.`, and the run returns success. -/
theorem zero_work_summary (c d : Int) (traces : List (List Int))
    (ir : List GoResult) (hcd : c ≤ 0 ∨ d ≤ 0)
    (htr : ∀ t ∈ traces, ∀ e ∈ t, 0 ≤ e) :
    (c ≤ 0 → launchWorkers c d traces ir = []) ∧
    (launchWorkers c d traces ir).flatten = [] ∧
    summarize (computeStats (launchWorkers c d traces ir).flatten) =
      .ok .noRequests := by
  have hczero : c ≤ 0 → launchWorkers c d traces ir = [] := by
    intro hc
    simp [launchWorkers, Int.toNat_of_nonpos hc]
  have hworker : ∀ t : List Int, d ≤ 0 → (∀ e ∈ t, (0 : Int) ≤ e) →
      workerResults t d ir = [] := by
    intro t hd ht
    unfold workerResults iterationsRun
    cases t with
    | nil => rfl
    | cons e es =>
      have he0 : (0 : Int) ≤ e := ht e (List.mem_cons_self e es)
      have hnotlt : ¬e < d := by omega
      simp [List.takeWhile_cons, hnotlt]
  have hflat : (launchWorkers c d traces ir).flatten = [] := by
    rcases hcd with hc | hd
    · rw [hczero hc]; rfl
    · apply List.flatten_eq_nil_iff.mpr
      intro w hw
      rw [launchWorkers] at hw
      obtain ⟨i, _, rfl⟩ := List.mem_map.mp hw
      have hall : ∀ e ∈ traces.getD i [], (0 : Int) ≤ e := by
        by_cases hi2 : i < traces.length
        · rw [List.getD_eq_getElem traces [] hi2]
          exact htr traces[i] (List.getElem_mem hi2)
        · rw [List.getD_eq_default traces [] (by omega)]
          intro e he
          simp at he
      exact hworker (traces.getD i []) hd hall
  refine ⟨hczero, hflat, ?_⟩
  rw [hflat]
  rfl

/-- Witness for the amended C9 at `concurrency = 0`, `duration = 1s`. -/
theorem zero_work_summary_witness :
    launchWorkers 0 1000000000 [] [] = [] ∧
    summarize (computeStats (launchWorkers 0 1000000000 [] []).flatten) =
      .ok .noRequests := by
  have h := zero_work_summary 0 1000000000 [] [] (Or.inl (by decide))
    (by intro t ht; simp at ht)
  exact ⟨h.1 (by decide), h.2.2⟩

/-- Counterexample to claim C10: two concurrent `Stop` callers can both
poll `stopCh` before either closes it; the second `close` then panics
(`close of closed channel`).  The interleaving is: caller 0 polls, caller 1
polls, caller 0 closes, caller 1 closes. -/
theorem stop_concurrent_panic_cex :
    (runStops 2 [0, 1, 0, 1]).panicked = true ∧
    (runStops 2 [0, 1, 0, 1]).closeCount = 1 := by
  constructor <;> rfl

/-- After the channel is closed and no caller is between its poll and its
close, any further schedule keeps the state: no panic, still closed, no
further close. -/
theorem stop_steady :
    ∀ (sched : List Nat) (s : StopState), s.panicked = false →
      s.closed = true → (∀ j, s.pcs j ≠ 1) →
      (List.foldl stepStop s sched).panicked = false ∧
      (List.foldl stepStop s sched).closed = true ∧
      (List.foldl stepStop s sched).closeCount = s.closeCount ∧
      (∀ j, (List.foldl stepStop s sched).pcs j ≠ 1) := by
  intro sched
  induction sched with
  | nil => intro s h1 h2 h3; exact ⟨h1, h2, rfl, h3⟩
  | cons t ts ih =>
    intro s h1 h2 h3
    have hs : (stepStop s t).panicked = false ∧ (stepStop s t).closed = true ∧
        (stepStop s t).closeCount = s.closeCount ∧
        (∀ j, (stepStop s t).pcs j ≠ 1) := by
      cases hpc : s.pcs t with
      | zero =>
        have heq : stepStop s t =
            { s with pcs := fun j => if j = t then 2 else s.pcs j } := by
          unfold stepStop
          simp [h1, h2, hpc]
        rw [heq]
        refine ⟨h1, h2, rfl, fun j => ?_⟩
        by_cases hj : j = t
        · simp [hj]
        · simp only [if_neg hj]
          exact h3 j
      | succ k =>
        cases k with
        | zero => exact absurd hpc (h3 t)
        | succ m =>
          have heq : stepStop s t = s := by
            unfold stepStop
            simp [h1, hpc]
          rw [heq]
          exact ⟨h1, h2, rfl, h3⟩
    obtain ⟨p1, p2, p3, p4⟩ := hs
    obtain ⟨q1, q2, q3, q4⟩ := ih (stepStop s t) p1 p2 p4
    refine ⟨q1, q2, ?_, q4⟩
    rw [List.foldl_cons, q3, p3]

/-- The first sequential `Stop` call from the initial state: it closes the
channel exactly once and leaves no caller mid-call. -/
theorem stop_first_call (n : Nat) (h : 1 ≤ n) :
    (List.foldl stepStop (initStop n) [0, 0]).closed = true ∧
    (List.foldl stepStop (initStop n) [0, 0]).panicked = false ∧
    (List.foldl stepStop (initStop n) [0, 0]).closeCount = 1 ∧
    (∀ j, (List.foldl stepStop (initStop n) [0, 0]).pcs j ≠ 1) := by
  have h0 : 0 < n := h
  have e1 : stepStop (initStop n) 0 =
      { closed := false, panicked := false, closeCount := 0,
        pcs := fun j => if j = 0 then 1 else (initStop n).pcs j } := by
    have hp0 : (initStop n).pcs 0 = 0 := by simp [initStop, h0]
    unfold stepStop
    rw [hp0]
    simp [initStop]
  have e2 : stepStop (stepStop (initStop n) 0) 0 =
      { closed := true, panicked := false, closeCount := 1,
        pcs := fun j => if j = 0 then 2
          else (stepStop (initStop n) 0).pcs j } := by
    rw [e1]
    unfold stepStop
    simp
  have e3 : List.foldl stepStop (initStop n) [0, 0] =
      stepStop (stepStop (initStop n) 0) 0 := rfl
  rw [e3, e2]
  refine ⟨rfl, rfl, rfl, fun j => ?_⟩
  by_cases hj : j = 0
  · simp [hj]
  · simp only [if_neg hj]
    rw [e1]
    simp only [if_neg hj, initStop]
    split <;> omega

/-- Claim C10 amended: sequential `Stop` calls (each completing before the
next begins), in any number, close the stop channel exactly once and never
panic, every call after the first leaving the closed state and the close
count unchanged; two overlapping concurrent calls, however, can interleave
poll and close so that the second close panics. -/
theorem stop_sequential_safe (n : Nat) (h : 1 ≤ n) :
    (runStops n (seqSched n)).panicked = false ∧
    (runStops n (seqSched n)).closed = true ∧
    (runStops n (seqSched n)).closeCount = 1 := by
  obtain ⟨m, rfl⟩ : ∃ m, n = m + 1 := ⟨n - 1, by omega⟩
  have hdecomp : seqSched (m + 1) =
      [0, 0] ++ (((List.range m).map Nat.succ).flatMap fun t => [t, t]) := by
    unfold seqSched
    rw [List.range_succ_eq_map, List.flatMap_cons]
  rw [runStops, hdecomp, List.foldl_append]
  obtain ⟨c1, p1, cc1, pc1⟩ := stop_first_call (m + 1) (by omega)
  have hst := stop_steady (((List.range m).map Nat.succ).flatMap fun t => [t, t])
    (List.foldl stepStop (initStop (m + 1)) [0, 0]) p1 c1 pc1
  exact ⟨hst.1, hst.2.1, by rw [hst.2.2.1, cc1]⟩

/-- Witness for the amended C10 at three sequential callers. -/
theorem stop_sequential_safe_witness :
    (runStops 3 (seqSched 3)).panicked = false ∧
    (runStops 3 (seqSched 3)).closed = true ∧
    (runStops 3 (seqSched 3)).closeCount = 1 :=
  stop_sequential_safe 3 (by decide)

end Pulse
